import Mathlib

/-!
# Verification of the Chunkatron chunk scheduler

A shallow embedding of `src/jQueryPlugins/chunkatron.js`: a bounded-concurrency
AJAX chunk downloader with per-chunk retry counters, FIFO re-enqueue on error,
a give-up path after a retry ceiling, and user-supplied callback hooks.

Modelling conventions:
* A chunk is the caller-supplied identifier sequence (`List Nat`); the source
  reads `currentChunk[0]` as the retry-tracking key.
* Callback hooks are modelled by their presence (`Bool`): the source's
  `callback` helper invokes a hook only when it is a function and silently
  does nothing when it is `null`.
* The observable behaviour is an event log: one entry per issued POST request
  and per invoked hook.  `$.ajax` callbacks (`success`/`error`, then
  `complete`) are modelled as an explicit completion step on the state,
  choosing which in-flight request finishes and with which outcome.
* The in-flight counter `concurrentDownloads` is an `Int` (a JS number that is
  incremented and decremented); the in-flight list is bookkeeping recording
  which requests have been issued but not completed.
* `downloadChunk` recurses (source line 86) only after a `shift` removed the
  queue head, so its recursion depth is bounded by the queue length; the
  embedding passes that bound plus one as structural fuel, which is therefore
  never exhausted.
-/

namespace Chunkatron

/-- A chunk: an opaque sequence of identifiers (source: chunks are arrays,
e.g. `[5]`; `currentChunk[0]` is the retry key). -/
abbrev Chunk := List Nat

/-- The retry-tracking key of a chunk, `currentChunk[0]` (source lines 82,
113).  Chunks supplied by callers are nonempty identifier sequences. -/
def chunkKey (c : Chunk) : Nat := c.headD 0

/-- Resolved settings (source lines 18-25, after `$.extend`).  Hooks are
recorded by presence; `dataType` is an opaque passthrough to `$.ajax` and
`verbose` only toggles `console.log`, so neither affects the modelled
behaviour, but `verbose` is kept for completeness. -/
structure Settings where
  url : Option String
  onChunkComplete : Bool
  chunks : Option (List Chunk)
  chunksUrl : Option String
  onComplete : Bool
  onChunkSuccess : Bool
  onChunkError : Bool
  onChunkGiveUp : Bool
  onFinished : Bool
  verbose : Bool
  maxDownloadRetries : Nat
  concurrentDownloadsMax : Nat
deriving DecidableEq

/-- The default options (source lines 18-25): everything null/false except
`dataType: 'json'`, `maxDownloadRetries: 3`, `concurrentDownloadsMax: 10`. -/
def defaultOptions : Settings :=
  { url := none, onChunkComplete := false, chunks := none, chunksUrl := none
    onComplete := false, onChunkSuccess := false, onChunkError := false
    onChunkGiveUp := false, onFinished := false
    verbose := false, maxDownloadRetries := 3, concurrentDownloadsMax := 10 }

/-- Observable events: issued POST requests (the `$.ajax` call, line 98) and
invoked hooks.  `onChunkSuccess` carries the response data, `onChunkError`
the error detail, `onChunkGiveUp` the abandoned chunk, mirroring the
arguments the source passes to each hook. -/
inductive Event
  | issued (c : Chunk)
  | onChunkSuccess (data : Nat)
  | onChunkError (err : Nat)
  | onChunkComplete
  | onChunkGiveUp (c : Chunk)
  | onFinished
deriving DecidableEq

/-- Mutable scheduler state: the chunk queue (`this.chunks`), the failure
counters (`this.chunkFailures`, an array keyed by chunk key, modelled as an
association list), the in-flight counter (`this.concurrentDownloads`), the
set of issued-but-not-completed requests, and the event log. -/
structure State where
  chunks : List Chunk
  chunkFailures : List (Nat × Nat)
  concurrentDownloads : Int
  inFlight : List Chunk
  events : List Event
deriving DecidableEq

/-- Reading `this.chunkFailures[k]` (source lines 82, 114): `none` models a
missing entry (JS `undefined`). -/
def failLookup (fs : List (Nat × Nat)) (k : Nat) : Option Nat :=
  (fs.find? (fun p => p.1 = k)).map (fun p => p.2)

/-- The update `self.chunkFailures[k] = (self.chunkFailures[k] == null) ? 1 :
self.chunkFailures[k] + 1` (source line 114). -/
def failBump (fs : List (Nat × Nat)) (k : Nat) : List (Nat × Nat) :=
  match failLookup fs k with
  | none => fs ++ [(k, 1)]
  | some n => fs.map (fun p => if p.1 = k then (k, n + 1) else p)

/-- The test `this.chunkFailures[currentChunk[0]] >
this.settings.maxDownloadRetries` (source line 82); a missing entry (`undefined > n`) is `false`. -/
def failExceeds (fs : List (Nat × Nat)) (k maxRetries : Nat) : Bool :=
  match failLookup fs k with
  | none => false
  | some n => maxRetries < n

/-- The `callback` helper (source lines 135-145): invokes the hook when it is
a function, silently does nothing when it is `null`.  Invoking a hook appends
its event to the log. -/
def callback (hookPresent : Bool) (e : Event) (s : State) : State :=
  if hookPresent then { s with events := s.events ++ [e] } else s

/-- The body of `downloadChunk` (source lines 62-129), with structural fuel: every
recursive call (line 86, the give-up branch) happens after a `shift`, so
recursion depth is bounded by the queue length and the fuel
`s.chunks.length + 1` used by `downloadChunk` below is never exhausted.
Branches, in source order: bail out when the concurrency cap is reached
(line 67); `shift` the queue head; if none is left, fire `onFinished` and
return (lines 75-79); if the popped chunk's failure count exceeds the retry
ceiling, fire `onChunkGiveUp` with the chunk and recurse (lines 82-89);
otherwise increment the in-flight counter and issue the POST (lines 92-127),
whose callbacks are modelled by `completeStep`. -/
def downloadChunkAux (cfg : Settings) : Nat → State → State
  | 0, s => s
  | fuel + 1, s =>
    if (cfg.concurrentDownloadsMax : Int) ≤ s.concurrentDownloads then s
    else
      match s.chunks with
      | [] => callback cfg.onFinished Event.onFinished s
      | currentChunk :: rest =>
        let s1 : State := { s with chunks := rest }
        if failExceeds s.chunkFailures (chunkKey currentChunk) cfg.maxDownloadRetries then
          downloadChunkAux cfg fuel
            (callback cfg.onChunkGiveUp (Event.onChunkGiveUp currentChunk) s1)
        else
          { s1 with
            concurrentDownloads := s1.concurrentDownloads + 1
            inFlight := s1.inFlight ++ [currentChunk]
            events := s1.events ++ [Event.issued currentChunk] }

/-- One call `this.downloadChunk()`: the fuel bound `s.chunks.length + 1`
dominates the recursion depth. -/
def downloadChunk (cfg : Settings) (s : State) : State :=
  downloadChunkAux cfg (s.chunks.length + 1) s

/-- Outcome of an in-flight request: `$.ajax` invokes `success` with the
response data or `error` with the error detail. -/
inductive Outcome
  | success (data : Nat)
  | failure (err : Nat)
deriving DecidableEq

/-- The `success` callback (source lines 106-109): pass the data to
`onChunkSuccess`. -/
def ajaxSuccess (cfg : Settings) (data : Nat) (s : State) : State :=
  callback cfg.onChunkSuccess (Event.onChunkSuccess data) s

/-- The `error` callback (source lines 111-118): increment the chunk's
failure counter (initialising to 1), push the chunk onto the end of the
queue, then invoke `onChunkError` with the error detail — in that order. -/
def ajaxError (cfg : Settings) (currentChunk : Chunk) (err : Nat) (s : State) : State :=
  callback cfg.onChunkError (Event.onChunkError err)
    { s with
      chunkFailures := failBump s.chunkFailures (chunkKey currentChunk)
      chunks := s.chunks ++ [currentChunk] }

/-- The `complete` callback (source lines 120-126): decrement the in-flight
counter, invoke `onChunkComplete`, then start a new download. -/
def ajaxComplete (cfg : Settings) (s : State) : State :=
  downloadChunk cfg
    (callback cfg.onChunkComplete Event.onChunkComplete
      { s with concurrentDownloads := s.concurrentDownloads - 1 })

/-- One asynchronous completion: the `i`-th in-flight request finishes with
outcome `o`.  jQuery fires `success` or `error` first, then `complete`.
An index with no in-flight request is a no-op (no such callback can fire). -/
def completeStep (cfg : Settings) (i : Nat) (o : Outcome) (s : State) : State :=
  match s.inFlight[i]? with
  | none => s
  | some currentChunk =>
    let s0 : State := { s with inFlight := s.inFlight.eraseIdx i }
    match o with
    | Outcome.success data => ajaxComplete cfg (ajaxSuccess cfg data s0)
    | Outcome.failure err => ajaxComplete cfg (ajaxError cfg currentChunk err s0)

/-- A schedule entry: which in-flight request completes, and how. -/
structure Step where
  idx : Nat
  outcome : Outcome
deriving DecidableEq

/-- Run a sequence of completions against a state. -/
def run (cfg : Settings) (s : State) (steps : List Step) : State :=
  steps.foldl (fun t st => completeStep cfg st.idx st.outcome t) s

/-- The fields initialised at construction (source lines 34, 40): zero
in-flight downloads, empty failure record, and the queue that `start` sets
from `this.settings.chunks` (line 157). -/
def initState (cs : List Chunk) : State :=
  { chunks := cs, chunkFailures := [], concurrentDownloads := 0
    inFlight := [], events := [] }

/-- The fan-out loop in `start` (source lines 160-162): call `downloadChunk`
`concurrentDownloadsMax` times. -/
def startLoop (cfg : Settings) : Nat → State → State
  | 0, s => s
  | n + 1, s => startLoop cfg n (downloadChunk cfg s)

/-- The `start` function (source lines 155-163) beginning from the given chunk
list:
set `this.chunks` and fan out up to the concurrency cap. -/
def startWith (cfg : Settings) (cs : List Chunk) : State :=
  startLoop cfg cfg.concurrentDownloadsMax (initState cs)

/-- The `verifySettings` check (source lines 45-57): throw if a required option
(`url`, then `onChunkComplete`, in settings-object order) is null, then
throw if both chunk sources are null. -/
def verifySettings (s : Settings) : Except String Unit :=
  if s.url = none then
    Except.error "Chunkatron requires a value for the url setting"
  else if s.onChunkComplete = false then
    Except.error "Chunkatron requires a value for the onChunkComplete setting"
  else if s.chunks = none ∧ s.chunksUrl = none then
    Except.error "Either the chunks or the chunksUrl must be provided"
  else Except.ok ()

/-- Result of construction when no error is thrown: either a GET for the
chunk list was issued (source lines 166-178, `chunks == null && chunksUrl !=
null`) with `start` deferred to its `success` callback, or `start` ran
immediately (line 180). -/
inductive InitResult
  | fetchingChunks (chunksUrl : String)
  | started (s : State)
deriving DecidableEq

/-- The plugin body (source lines 12-185): verify settings first (line 148,
before any request), then either fetch the chunk list or start downloading
from the pre-supplied chunks. -/
def chunkatron (cfg : Settings) : Except String InitResult :=
  match verifySettings cfg with
  | Except.error msg => Except.error msg
  | Except.ok _ =>
    if cfg.chunks.isNone && cfg.chunksUrl.isSome then
      Except.ok (InitResult.fetchingChunks (cfg.chunksUrl.getD ""))
    else
      Except.ok (InitResult.started (startWith cfg (cfg.chunks.getD [])))

/-- The chunk-list fetch `success` callback (source lines 171-174): store the
data in the settings and call `start`. -/
def chunksFetchSuccess (cfg : Settings) (data : List Chunk) : State :=
  startWith cfg data

/-- The chunk-list fetch `error` callback (source lines 175-177): throw; the
operation is aborted, nothing retries the fetch and `start` is never
called. -/
def chunksFetchFailure (cfg : Settings) : Except String InitResult :=
  Except.error ("We were unable to download the chunks from the url provided: "
    ++ cfg.chunksUrl.getD "")

/-- States reachable by the scheduler: a started state (from a pre-supplied
or fetched chunk list) followed by any sequence of request completions. -/
inductive Reachable (cfg : Settings) : State → Prop
  | start (cs : List Chunk) : Reachable cfg (startWith cfg cs)
  | step (i : Nat) (o : Outcome) {s : State} :
      Reachable cfg s → Reachable cfg (completeStep cfg i o s)

/-! ## Basic lemmas about the embedding -/

@[simp]
theorem callback_chunks (b : Bool) (e : Event) (s : State) :
    (callback b e s).chunks = s.chunks := by
  unfold callback; split <;> rfl

@[simp]
theorem callback_chunkFailures (b : Bool) (e : Event) (s : State) :
    (callback b e s).chunkFailures = s.chunkFailures := by
  unfold callback; split <;> rfl

@[simp]
theorem callback_concurrentDownloads (b : Bool) (e : Event) (s : State) :
    (callback b e s).concurrentDownloads = s.concurrentDownloads := by
  unfold callback; split <;> rfl

@[simp]
theorem callback_inFlight (b : Bool) (e : Event) (s : State) :
    (callback b e s).inFlight = s.inFlight := by
  unfold callback; split <;> rfl

@[simp]
theorem callback_events (b : Bool) (e : Event) (s : State) :
    (callback b e s).events = s.events ++ (if b then [e] else []) := by
  unfold callback; split <;> simp

theorem find?_append_of_none {α : Type} (p : α → Bool) {l1 : List α} (l2 : List α)
    (h : l1.find? p = none) : (l1 ++ l2).find? p = l2.find? p := by
  simp [List.find?_append, h]

theorem failLookup_map_bump (fs : List (Nat × Nat)) (k n : Nat)
    (h : failLookup fs k = some n) :
    failLookup (fs.map (fun p => if p.1 = k then (k, n + 1) else p)) k
      = some (n + 1) := by
  induction fs with
  | nil => simp [failLookup] at h
  | cons a l ih =>
    by_cases ha : a.1 = k
    · simp [failLookup, List.find?_cons_of_pos, ha] at h ⊢
    · simp only [failLookup, List.map_cons, if_neg ha] at h ⊢
      rw [List.find?_cons_of_neg _ (by simp [ha])] at h ⊢
      exact ih h

/-- Incrementing a failure counter: a missing entry becomes 1, an existing
entry `n` becomes `n + 1` (source line 114). -/
theorem failLookup_failBump (fs : List (Nat × Nat)) (k : Nat) :
    failLookup (failBump fs k) k = some ((failLookup fs k).getD 0 + 1) := by
  cases h : failLookup fs k with
  | none =>
    have hfind : fs.find? (fun p => p.1 = k) = none := by
      unfold failLookup at h
      exact Option.map_eq_none'.mp h
    unfold failBump
    rw [h]
    unfold failLookup
    rw [find?_append_of_none _ _ hfind]
    simp [List.find?]
  | some n =>
    unfold failBump
    rw [h]
    simpa using failLookup_map_bump fs k n h

/-! ## The concurrency invariant -/

/-- The in-flight counter equals the number of issued-but-uncompleted
requests, and that number never exceeds the configured cap. -/
def ConcInv (cfg : Settings) (s : State) : Prop :=
  s.concurrentDownloads = (s.inFlight.length : Int) ∧
    s.inFlight.length ≤ cfg.concurrentDownloadsMax

theorem downloadChunkAux_concInv (cfg : Settings) (fuel : Nat) :
    ∀ s : State, ConcInv cfg s → ConcInv cfg (downloadChunkAux cfg fuel s) := by
  induction fuel with
  | zero => intro s h; exact h
  | succ n ih =>
    intro s h
    obtain ⟨h1, h2⟩ := h
    simp only [downloadChunkAux]
    split
    · exact ⟨h1, h2⟩
    · next hb =>
      split
      · next hnil =>
        refine ⟨?_, ?_⟩ <;> simp [ConcInv, h1, h2]
      · next c rest hcons =>
        split
        · next hfail =>
          apply ih
          refine ⟨?_, ?_⟩ <;> simp [h1, h2]
        · next hfail =>
          refine ⟨?_, ?_⟩
          · simpa using h1
          · simp only [List.length_append, List.length_cons, List.length_nil]
            rw [h1] at hb
            have hlt : s.inFlight.length < cfg.concurrentDownloadsMax := by
              exact_mod_cast not_le.mp hb
            omega


theorem downloadChunk_concInv (cfg : Settings) (s : State) (h : ConcInv cfg s) :
    ConcInv cfg (downloadChunk cfg s) :=
  downloadChunkAux_concInv cfg _ s h

theorem ajaxComplete_concInv (cfg : Settings) (s : State)
    (h1 : s.concurrentDownloads = (s.inFlight.length : Int) + 1)
    (h2 : s.inFlight.length ≤ cfg.concurrentDownloadsMax) :
    ConcInv cfg (ajaxComplete cfg s) := by
  unfold ajaxComplete
  apply downloadChunk_concInv
  exact ⟨by simp [h1], by simpa using h2⟩

theorem completeStep_concInv (cfg : Settings) (i : Nat) (o : Outcome) (s : State)
    (h : ConcInv cfg s) : ConcInv cfg (completeStep cfg i o s) := by
  obtain ⟨h1, h2⟩ := h
  unfold completeStep
  cases hif : s.inFlight[i]? with
  | none => exact ⟨h1, h2⟩
  | some c =>
    have hi : i < s.inFlight.length := (List.getElem?_eq_some.mp hif).1
    have hlen : (s.inFlight.eraseIdx i).length = s.inFlight.length - 1 := by
      rw [List.length_eraseIdx]; simp [hi]
    cases o with
    | success d =>
      apply ajaxComplete_concInv
      · simp only [ajaxSuccess, callback_concurrentDownloads, callback_inFlight]
        rw [h1, hlen]
        have : 1 ≤ s.inFlight.length := by omega
        push_cast [this]
        ring
      · simp only [ajaxSuccess, callback_inFlight]
        rw [hlen]; omega
    | failure err =>
      apply ajaxComplete_concInv
      · simp only [ajaxError, callback_concurrentDownloads, callback_inFlight]
        rw [h1, hlen]
        have : 1 ≤ s.inFlight.length := by omega
        push_cast [this]
        ring
      · simp only [ajaxError, callback_inFlight]
        rw [hlen]; omega

theorem startLoop_concInv (cfg : Settings) (n : Nat) :
    ∀ s : State, ConcInv cfg s → ConcInv cfg (startLoop cfg n s) := by
  induction n with
  | zero => intro s h; exact h
  | succ m ih => intro s h; exact ih _ (downloadChunk_concInv cfg s h)

theorem startWith_concInv (cfg : Settings) (cs : List Chunk) :
    ConcInv cfg (startWith cfg cs) := by
  apply startLoop_concInv
  exact ⟨by simp [initState], by simp [initState]⟩

theorem reachable_concInv (cfg : Settings) (s : State) (h : Reachable cfg s) :
    ConcInv cfg s := by
  induction h with
  | start cs => exact startWith_concInv cfg cs
  | step i o hr ih => exact completeStep_concInv cfg i o _ ih

/-! ## Scenario configurations -/

/-- C1 scenario: single chunk `[5]`, `maxDownloadRetries = 2`, cap 1, every
hook provided. -/
def cfgGiveUp : Settings :=
  { url := some "report", onChunkComplete := true, chunks := some [[5]]
    chunksUrl := none, onComplete := false, onChunkSuccess := true
    onChunkError := true, onChunkGiveUp := true, onFinished := true
    verbose := false, maxDownloadRetries := 2, concurrentDownloadsMax := 1 }

/-- C2 (invariants claim).
For every configuration and every reachable scheduler state, the in-flight
counter satisfies `0 ≤ concurrentDownloads ≤ concurrentDownloadsMax`; by the
inductive definition of `Reachable`, every step of the scheduler (the start
fan-out and each request completion, which runs `downloadChunk` again)
preserves these bounds. -/
theorem C2_concurrency_bounds (cfg : Settings) (s : State) (h : Reachable cfg s) :
    0 ≤ s.concurrentDownloads ∧
      s.concurrentDownloads ≤ (cfg.concurrentDownloadsMax : Int) := by
  obtain ⟨h1, h2⟩ := reachable_concInv cfg s h
  constructor
  · rw [h1]; exact_mod_cast Nat.zero_le _
  · rw [h1]; exact_mod_cast h2

/-- Witness for C2 at a concrete reachable state. -/
theorem C2_concurrency_bounds_witness :
    0 ≤ (startWith cfgGiveUp [[5]]).concurrentDownloads ∧
      (startWith cfgGiveUp [[5]]).concurrentDownloads ≤
        (cfgGiveUp.concurrentDownloadsMax : Int) :=
  C2_concurrency_bounds cfgGiveUp _ (Reachable.start [[5]])

/-! ## Event-log lemmas: the log only grows, and `onFinished` fires only on
an empty queue -/

theorem append_decomp {α : Type} {a e new new2 : List α}
    (h : a ++ new = (a ++ e) ++ new2) : new = e ++ new2 := by
  rw [List.append_assoc] at h
  exact List.append_cancel_left h

theorem self_append_eq_nil {α : Type} {a new : List α}
    (h : a = a ++ new) : new = [] := by
  have h2 : a ++ [] = a ++ new := by simpa using h
  exact (List.append_cancel_left h2).symm

theorem downloadChunkAux_events_mono (cfg : Settings) (fuel : Nat) :
    ∀ s : State, ∃ new, (downloadChunkAux cfg fuel s).events = s.events ++ new := by
  induction fuel with
  | zero => intro s; exact ⟨[], by simp [downloadChunkAux]⟩
  | succ n ih =>
    intro s
    simp only [downloadChunkAux]
    split
    · exact ⟨[], by simp⟩
    · split
      · next hnil =>
        exact ⟨if cfg.onFinished then [Event.onFinished] else [], by simp⟩
      · next c rest hcons =>
        split
        · obtain ⟨new2, h2⟩ :=
            ih (callback cfg.onChunkGiveUp (Event.onChunkGiveUp c) { s with chunks := rest })
          exact ⟨(if cfg.onChunkGiveUp then [Event.onChunkGiveUp c] else []) ++ new2,
            by rw [h2]; simp⟩
        · exact ⟨[Event.issued c], by simp⟩

theorem downloadChunk_events_mono (cfg : Settings) (s : State) :
    ∃ new, (downloadChunk cfg s).events = s.events ++ new :=
  downloadChunkAux_events_mono cfg _ s

theorem downloadChunkAux_onFinished (cfg : Settings) (fuel : Nat) :
    ∀ (s : State) (new : List Event),
      (downloadChunkAux cfg fuel s).events = s.events ++ new →
      Event.onFinished ∈ new →
      (downloadChunkAux cfg fuel s).chunks = [] ∧
        new.getLast? = some Event.onFinished := by
  induction fuel with
  | zero =>
    intro s new h hmem
    have : new = [] := self_append_eq_nil (α := Event) h
    simp [this] at hmem
  | succ n ih =>
    intro s new h hmem
    by_cases hb : (cfg.concurrentDownloadsMax : Int) ≤ s.concurrentDownloads
    · simp only [downloadChunkAux, if_pos hb] at h ⊢
      have : new = [] := self_append_eq_nil (α := Event) h
      simp [this] at hmem
    · cases hc : s.chunks with
      | nil =>
        simp only [downloadChunkAux, if_neg hb, hc] at h ⊢
        rw [callback_events] at h
        have hnew : new = if cfg.onFinished then [Event.onFinished] else [] :=
          (List.append_cancel_left h.symm)
        cases hfin : cfg.onFinished with
        | false => rw [hfin] at hnew; simp [hnew] at hmem
        | true =>
          rw [hfin] at hnew
          refine ⟨by simp [hc], ?_⟩
          simp [hnew]
      | cons c rest =>
        by_cases hf :
            failExceeds s.chunkFailures (chunkKey c) cfg.maxDownloadRetries = true
        · simp only [downloadChunkAux, if_neg hb, hc, hf, if_true] at h ⊢
          obtain ⟨new2, h2⟩ := downloadChunkAux_events_mono cfg n
            (callback cfg.onChunkGiveUp (Event.onChunkGiveUp c) { s with chunks := rest })
          have hcb : (callback cfg.onChunkGiveUp (Event.onChunkGiveUp c)
              { s with chunks := rest }).events =
              s.events ++ (if cfg.onChunkGiveUp then [Event.onChunkGiveUp c] else []) := by
            simp
          have h2' : (downloadChunkAux cfg n
              (callback cfg.onChunkGiveUp (Event.onChunkGiveUp c)
                { s with chunks := rest })).events =
              (s.events ++ (if cfg.onChunkGiveUp then [Event.onChunkGiveUp c] else []))
                ++ new2 := by
            rw [← hcb]; exact h2
          have hnew : new = (if cfg.onChunkGiveUp then [Event.onChunkGiveUp c] else []) ++ new2 :=
            append_decomp (h.symm.trans h2')
          have hmem2 : Event.onFinished ∈ new2 := by
            rcases List.mem_append.mp (hnew ▸ hmem) with hm | hm
            · cases hgu : cfg.onChunkGiveUp <;> rw [hgu] at hm <;> simp at hm
            · exact hm
          obtain ⟨hchunks, hlast⟩ := ih _ new2 h2 hmem2
          refine ⟨hchunks, ?_⟩
          rw [hnew]
          rw [List.getLast?_append_of_ne_nil _ (List.ne_nil_of_mem hmem2)]
          exact hlast
        · simp only [downloadChunkAux, if_neg hb, hc] at h
          rw [if_neg hf] at h
          have h' : s.events ++ new = s.events ++ [Event.issued c] := by
            simpa using h.symm
          have hnew : new = [Event.issued c] := List.append_cancel_left h'
          simp [hnew] at hmem

theorem downloadChunk_onFinished (cfg : Settings) (s : State) (new : List Event)
    (h : (downloadChunk cfg s).events = s.events ++ new)
    (hmem : Event.onFinished ∈ new) :
    (downloadChunk cfg s).chunks = [] ∧ new.getLast? = some Event.onFinished :=
  downloadChunkAux_onFinished cfg _ s new h hmem

@[simp]
theorem ajaxSuccess_events (cfg : Settings) (d : Nat) (s : State) :
    (ajaxSuccess cfg d s).events =
      s.events ++ (if cfg.onChunkSuccess then [Event.onChunkSuccess d] else []) := by
  simp [ajaxSuccess]

@[simp]
theorem ajaxError_events (cfg : Settings) (c : Chunk) (err : Nat) (s : State) :
    (ajaxError cfg c err s).events =
      s.events ++ (if cfg.onChunkError then [Event.onChunkError err] else []) := by
  simp [ajaxError]

/-- Facts about `onFinished` transported across a prefix of non-`onFinished`
events: if the inner state `t` extends `s`'s log by `e0` and a
`downloadChunk` from `t` emits `onFinished`, the queue ends empty and
`onFinished` is the last event emitted. -/
theorem downloadChunk_onFinished_shift (cfg : Settings) (s t : State)
    (e0 new : List Event)
    (ht : t.events = s.events ++ e0)
    (he0 : Event.onFinished ∉ e0)
    (h : (downloadChunk cfg t).events = s.events ++ new)
    (hmem : Event.onFinished ∈ new) :
    (downloadChunk cfg t).chunks = [] ∧ new.getLast? = some Event.onFinished := by
  obtain ⟨new2, h2⟩ := downloadChunk_events_mono cfg t
  have h2' := h2
  rw [ht, List.append_assoc] at h2'
  have hnew : new = e0 ++ new2 :=
    List.append_cancel_left (h.symm.trans h2')
  have hmem2 : Event.onFinished ∈ new2 := by
    rcases List.mem_append.mp (hnew ▸ hmem) with hm | hm
    · exact absurd hm he0
    · exact hm
  obtain ⟨hchunks, hlast⟩ := downloadChunk_onFinished cfg t new2 h2 hmem2
  refine ⟨hchunks, ?_⟩
  rw [hnew, List.getLast?_append_of_ne_nil _ (List.ne_nil_of_mem hmem2)]
  exact hlast

theorem ajaxComplete_onFinished_shift (cfg : Settings) (s t : State)
    (e0 new : List Event)
    (ht : t.events = s.events ++ e0)
    (he0 : Event.onFinished ∉ e0)
    (h : (ajaxComplete cfg t).events = s.events ++ new)
    (hmem : Event.onFinished ∈ new) :
    (ajaxComplete cfg t).chunks = [] ∧ new.getLast? = some Event.onFinished := by
  unfold ajaxComplete at h ⊢
  refine downloadChunk_onFinished_shift cfg s _
    (e0 ++ (if cfg.onChunkComplete then [Event.onChunkComplete] else [])) new ?_ ?_ h hmem
  · simp [ht]
  · cases cfg.onChunkComplete <;> simp [he0]

theorem completeStep_onFinished (cfg : Settings) (i : Nat) (o : Outcome)
    (s : State) (new : List Event)
    (h : (completeStep cfg i o s).events = s.events ++ new)
    (hmem : Event.onFinished ∈ new) :
    (completeStep cfg i o s).chunks = [] ∧
      new.getLast? = some Event.onFinished := by
  unfold completeStep at h ⊢
  cases hif : s.inFlight[i]? with
  | none =>
    rw [hif] at h
    have : new = [] := self_append_eq_nil (α := Event) h
    simp [this] at hmem
  | some c =>
    rw [hif] at h
    cases o with
    | success d =>
      exact ajaxComplete_onFinished_shift cfg s
        (ajaxSuccess cfg d { s with inFlight := s.inFlight.eraseIdx i })
        (if cfg.onChunkSuccess then [Event.onChunkSuccess d] else []) new
        (by simp) (by cases cfg.onChunkSuccess <;> simp) h hmem
    | failure err =>
      exact ajaxComplete_onFinished_shift cfg s
        (ajaxError cfg c err { s with inFlight := s.inFlight.eraseIdx i })
        (if cfg.onChunkError then [Event.onChunkError err] else []) new
        (by simp) (by cases cfg.onChunkError <;> simp) h hmem

theorem downloadChunkAux_chunks_nil (cfg : Settings) (fuel : Nat) :
    ∀ s : State, s.chunks = [] → (downloadChunkAux cfg fuel s).chunks = [] := by
  induction fuel with
  | zero => intro s h; exact h
  | succ n ih =>
    intro s h
    simp only [downloadChunkAux]
    split
    · exact h
    · split
      · next hnil => simpa using h
      · next c rest hcons => rw [h] at hcons; cases hcons

theorem downloadChunk_chunks_nil (cfg : Settings) (s : State)
    (h : s.chunks = []) : (downloadChunk cfg s).chunks = [] :=
  downloadChunkAux_chunks_nil cfg _ s h

theorem startLoop_chunks_nil (cfg : Settings) (n : Nat) :
    ∀ s : State, s.chunks = [] → (startLoop cfg n s).chunks = [] := by
  induction n with
  | zero => intro s h; exact h
  | succ m ih => intro s h; exact ih _ (downloadChunk_chunks_nil cfg s h)

theorem startLoop_events_mono (cfg : Settings) (n : Nat) :
    ∀ s : State, ∃ new, (startLoop cfg n s).events = s.events ++ new := by
  induction n with
  | zero => intro s; exact ⟨[], by simp [startLoop]⟩
  | succ m ih =>
    intro s
    obtain ⟨d0, hd0⟩ := downloadChunk_events_mono cfg s
    obtain ⟨new2, h2⟩ := ih (downloadChunk cfg s)
    exact ⟨d0 ++ new2, by
      simp only [startLoop]
      rw [h2, hd0, List.append_assoc]⟩

theorem startLoop_onFinished (cfg : Settings) (n : Nat) :
    ∀ (s : State) (new : List Event),
      (startLoop cfg n s).events = s.events ++ new →
      Event.onFinished ∈ new →
      (startLoop cfg n s).chunks = [] := by
  induction n with
  | zero =>
    intro s new h hmem
    have : new = [] := self_append_eq_nil (α := Event) h
    simp [this] at hmem
  | succ m ih =>
    intro s new h hmem
    simp only [startLoop] at h ⊢
    obtain ⟨d0, hd0⟩ := downloadChunk_events_mono cfg s
    obtain ⟨new2, h2⟩ := startLoop_events_mono cfg m (downloadChunk cfg s)
    have h2' := h2
    rw [hd0, List.append_assoc] at h2'
    have hnew : new = d0 ++ new2 :=
      List.append_cancel_left (h.symm.trans h2')
    rcases List.mem_append.mp (hnew ▸ hmem) with hm | hm
    · exact startLoop_chunks_nil cfg m _
        ((downloadChunk_onFinished cfg s d0 hd0 hm).1)
    · exact ih _ new2 h2 hm

/-- C4 (temporal claim).
`onFinished` is invoked only in states where the chunk queue is empty: in
any `downloadChunk` call (including the start fan-out, third conjunct) and
in any request-completion step, if the newly emitted events include
`onFinished` then no chunks remain in the queue at that point — the firing
is the last action of the step and the step ends with an empty queue.  It
may fire more than once across a run (once per worker observing the empty
queue), and requests may still be in flight when it does. -/
theorem C4_onFinished_only_on_empty_queue :
    (∀ (cfg : Settings) (s : State) (new : List Event),
        (downloadChunk cfg s).events = s.events ++ new →
        Event.onFinished ∈ new →
        (downloadChunk cfg s).chunks = [] ∧
          new.getLast? = some Event.onFinished) ∧
    (∀ (cfg : Settings) (i : Nat) (o : Outcome) (s : State) (new : List Event),
        (completeStep cfg i o s).events = s.events ++ new →
        Event.onFinished ∈ new →
        (completeStep cfg i o s).chunks = [] ∧
          new.getLast? = some Event.onFinished) ∧
    (∀ (cfg : Settings) (n : Nat) (s : State) (new : List Event),
        (startLoop cfg n s).events = s.events ++ new →
        Event.onFinished ∈ new →
        (startLoop cfg n s).chunks = []) :=
  ⟨downloadChunk_onFinished, completeStep_onFinished, startLoop_onFinished⟩

/-- A state with one in-flight request and an empty queue, as left by the
start fan-out of `cfgGiveUp` once `[9]` has been issued. -/
def oneInFlight : State :=
  { chunks := [], chunkFailures := [], concurrentDownloads := 1
    inFlight := [[9]], events := [] }

/-- Witness for C4: completing the only in-flight request of `oneInFlight`
fires `onFinished` last, on an empty queue. -/
theorem C4_onFinished_only_on_empty_queue_witness :
    (completeStep cfgGiveUp 0 (Outcome.success 0) oneInFlight).chunks = [] ∧
      ([Event.onChunkSuccess 0, Event.onChunkComplete,
        Event.onFinished] : List Event).getLast? = some Event.onFinished :=
  C4_onFinished_only_on_empty_queue.2.1 cfgGiveUp 0 (Outcome.success 0) oneInFlight
    [Event.onChunkSuccess 0, Event.onChunkComplete, Event.onFinished]
    (by decide) (by decide)

/-! ## The give-up path (retry ceiling exceeded) -/

theorem downloadChunkAux_giveup (cfg : Settings) (fuel : Nat) (s : State)
    (c : Chunk) (rest : List Chunk)
    (hg : cfg.onChunkGiveUp = true)
    (hc : s.chunks = c :: rest)
    (hlt : s.concurrentDownloads < (cfg.concurrentDownloadsMax : Int))
    (hf : failExceeds s.chunkFailures (chunkKey c) cfg.maxDownloadRetries = true) :
    downloadChunkAux cfg (fuel + 1) s =
      downloadChunkAux cfg fuel
        { s with chunks := rest,
                 events := s.events ++ [Event.onChunkGiveUp c] } := by
  obtain ⟨cs, fs, cd, fl, ev⟩ := s
  simp only [State.chunks] at hc
  subst hc
  simp only [downloadChunkAux, if_neg (not_le.mpr hlt), hf, if_true, callback, hg]

theorem downloadChunk_giveup (cfg : Settings) (s : State) (c : Chunk)
    (rest : List Chunk)
    (hg : cfg.onChunkGiveUp = true)
    (hc : s.chunks = c :: rest)
    (hlt : s.concurrentDownloads < (cfg.concurrentDownloadsMax : Int))
    (hf : failExceeds s.chunkFailures (chunkKey c) cfg.maxDownloadRetries = true) :
    downloadChunk cfg s =
      downloadChunk cfg
        { s with chunks := rest,
                 events := s.events ++ [Event.onChunkGiveUp c] } := by
  unfold downloadChunk
  have h1 : s.chunks.length + 1 = rest.length + 1 + 1 := by rw [hc]; rfl
  rw [h1, downloadChunkAux_giveup cfg (rest.length + 1) s c rest hg hc hlt hf]

theorem completeStep_no_inflight (cfg : Settings) (i : Nat) (o : Outcome)
    (s : State) (h : s.inFlight = []) : completeStep cfg i o s = s := by
  simp [completeStep, h]

theorem run_no_inflight (cfg : Settings) (steps : List Step) :
    ∀ s : State, s.inFlight = [] → run cfg s steps = s := by
  induction steps with
  | nil => intro s h; rfl
  | cons st rest ih =>
    intro s h
    simp only [run, List.foldl_cons]
    rw [completeStep_no_inflight cfg st.idx st.outcome s h]
    exact ih s h

/-- The C1 scenario schedule: the single in-flight request errors, three
times in a row. -/
def failThrice : List Step :=
  [⟨0, Outcome.failure 0⟩, ⟨0, Outcome.failure 0⟩, ⟨0, Outcome.failure 0⟩]

/-- The state after the C1 scenario: start with chunk `[5]`, then three
failed attempts. -/
def giveUpTrace : State := run cfgGiveUp (startWith cfgGiveUp [[5]]) failThrice

/-- C1 (retry ceiling / give-up claim).
First conjunct, the general dequeue behaviour: whenever `downloadChunk`
dequeues a chunk whose recorded failure count (under key `c[0]`) strictly
exceeds `maxDownloadRetries`, the whole call behaves exactly like a call on
the state with that chunk removed and a single `onChunkGiveUp c` appended —
one give-up invocation, no re-enqueue, and the replacement download is
attempted immediately (the continuation is again `downloadChunk`).
Second conjunct, the scenario: chunk `[5]` erroring on every attempt with
`maxDownloadRetries = 2` yields exactly 3 issued attempts and 3
`onChunkError` calls, then exactly one `onChunkGiveUp [5]`, and no further
step can ever attempt the chunk again. -/
theorem C1_retry_ceiling_give_up :
    (∀ (cfg : Settings) (s : State) (c : Chunk) (rest : List Chunk),
        cfg.onChunkGiveUp = true →
        s.chunks = c :: rest →
        s.concurrentDownloads < (cfg.concurrentDownloadsMax : Int) →
        failExceeds s.chunkFailures (chunkKey c) cfg.maxDownloadRetries = true →
        downloadChunk cfg s =
          downloadChunk cfg
            { s with chunks := rest,
                     events := s.events ++ [Event.onChunkGiveUp c] }) ∧
    (chunkatron cfgGiveUp =
        Except.ok (InitResult.started (startWith cfgGiveUp [[5]])) ∧
      giveUpTrace.events =
        [Event.issued [5], Event.onChunkError 0, Event.onChunkComplete,
         Event.issued [5], Event.onChunkError 0, Event.onChunkComplete,
         Event.issued [5], Event.onChunkError 0, Event.onChunkComplete,
         Event.onChunkGiveUp [5], Event.onFinished] ∧
      giveUpTrace.events.count (Event.issued [5]) = 3 ∧
      giveUpTrace.events.count (Event.onChunkError 0) = 3 ∧
      giveUpTrace.events.count (Event.onChunkGiveUp [5]) = 1 ∧
      ∀ extra : List Step, run cfgGiveUp giveUpTrace extra = giveUpTrace) := by
  refine ⟨fun cfg s c rest hg hc hlt hf => downloadChunk_giveup cfg s c rest hg hc hlt hf,
    rfl, by decide, by decide, by decide, by decide, ?_⟩
  intro extra
  exact run_no_inflight cfgGiveUp extra giveUpTrace (by decide)

/-- A state about to dequeue chunk `[5]` whose failure count 3 exceeds the
ceiling 2. -/
def giveUpReady : State :=
  { chunks := [[5]], chunkFailures := [(5, 3)], concurrentDownloads := 0
    inFlight := [], events := [] }

/-- Witness for C1's general conjunct at a concrete state. -/
theorem C1_retry_ceiling_give_up_witness :
    downloadChunk cfgGiveUp giveUpReady =
      downloadChunk cfgGiveUp
        { giveUpReady with
          chunks := []
          events := giveUpReady.events ++ [Event.onChunkGiveUp [5]] } :=
  C1_retry_ceiling_give_up.1 cfgGiveUp giveUpReady [5] []
    (by decide) (by decide) (by decide) (by decide)

/-! ## The error path and construction checks -/

/-- C3 (error-handler claim).
First conjunct: when the `i`-th in-flight request (carrying chunk `c`) ends
in error, the step is exactly the `error` callback followed by the
`complete` callback.  Second conjunct: the `error` callback increments the
failure counter for key `c[0]`, pushes `c` onto the end (back) of the chunk
queue — FIFO re-entry, not a priority position — and invokes `onChunkError`
with the error detail, in that source order.  Third and fourth conjuncts:
the counter is initialised to 1 on the first failure and incremented
thereafter. -/
theorem C3_error_increments_and_requeues :
    (∀ (cfg : Settings) (i err : Nat) (s : State) (c : Chunk),
        s.inFlight[i]? = some c →
        completeStep cfg i (Outcome.failure err) s =
          ajaxComplete cfg
            (ajaxError cfg c err { s with inFlight := s.inFlight.eraseIdx i })) ∧
    (∀ (cfg : Settings) (c : Chunk) (err : Nat) (s : State),
        cfg.onChunkError = true →
        ajaxError cfg c err s =
          { s with
            chunkFailures := failBump s.chunkFailures (chunkKey c)
            chunks := s.chunks ++ [c]
            events := s.events ++ [Event.onChunkError err] }) ∧
    (∀ (fs : List (Nat × Nat)) (k : Nat),
        failLookup fs k = none → failLookup (failBump fs k) k = some 1) ∧
    (∀ (fs : List (Nat × Nat)) (k n : Nat),
        failLookup fs k = some n →
        failLookup (failBump fs k) k = some (n + 1)) := by
  refine ⟨?_, ?_, ?_, ?_⟩
  · intro cfg i err s c hif
    simp only [completeStep, hif]
  · intro cfg c err s hE
    simp [ajaxError, callback, hE]
  · intro fs k h
    simp [failLookup_failBump, h]
  · intro fs k n h
    simp [failLookup_failBump, h]

/-- Witness for C3 at a concrete state and error. -/
theorem C3_error_increments_and_requeues_witness :
    completeStep cfgGiveUp 0 (Outcome.failure 7) oneInFlight =
      ajaxComplete cfgGiveUp
        (ajaxError cfgGiveUp [9] 7
          { oneInFlight with inFlight := oneInFlight.inFlight.eraseIdx 0 }) :=
  C3_error_increments_and_requeues.1 cfgGiveUp 0 7 oneInFlight [9] (by decide)

theorem verifySettings_error_of_missing (cfg : Settings)
    (h : cfg.url = none ∨ cfg.onChunkComplete = false ∨
      (cfg.chunks = none ∧ cfg.chunksUrl = none)) :
    ∃ msg, verifySettings cfg = Except.error msg := by
  unfold verifySettings
  split_ifs with h1 h2 h3
  · exact ⟨_, rfl⟩
  · exact ⟨_, rfl⟩
  · exact ⟨_, rfl⟩
  · rcases h with h | h | h
    · exact absurd h h1
    · exact absurd h h2
    · exact absurd h h3

theorem chunkatron_error_of_missing (cfg : Settings)
    (h : cfg.url = none ∨ cfg.onChunkComplete = false ∨
      (cfg.chunks = none ∧ cfg.chunksUrl = none)) :
    ∃ msg, chunkatron cfg = Except.error msg := by
  obtain ⟨msg, hv⟩ := verifySettings_error_of_missing cfg h
  exact ⟨msg, by unfold chunkatron; rw [hv]⟩

/-- C5 (construction-error claim).
A configuration missing `url`, or missing `onChunkComplete`, or missing both
chunk sources makes construction throw synchronously (`verifySettings` runs
at line 148, before the chunk-list fetch or `start`): the result is an
error, never an `InitResult` — and an issued request exists only inside an
`InitResult`, so no network request is issued. -/
theorem C5_construction_fails_fast (cfg : Settings)
    (h : cfg.url = none ∨ cfg.onChunkComplete = false ∨
      (cfg.chunks = none ∧ cfg.chunksUrl = none)) :
    (∃ msg, chunkatron cfg = Except.error msg) ∧
      ∀ r : InitResult, chunkatron cfg ≠ Except.ok r := by
  obtain ⟨msg, hm⟩ := chunkatron_error_of_missing cfg h
  exact ⟨⟨msg, hm⟩, fun r hr => by rw [hm] at hr; cases hr⟩

/-- A configuration with no `url` (other required pieces present). -/
def cfgMissingUrl : Settings :=
  { defaultOptions with onChunkComplete := true, chunks := some [[1]] }

/-- Witness for C5 at a concrete configuration missing `url`. -/
theorem C5_construction_fails_fast_witness :
    (∃ msg, chunkatron cfgMissingUrl = Except.error msg) ∧
      ∀ r : InitResult, chunkatron cfgMissingUrl ≠ Except.ok r :=
  C5_construction_fails_fast cfgMissingUrl (Or.inl rfl)

/-- A configuration supplying `url`, `onChunkComplete`, and both chunk
sources. -/
def cfgBothSources : Settings :=
  { url := some "report", onChunkComplete := true, chunks := some [[1]]
    chunksUrl := some "chunk-list", onComplete := false, onChunkSuccess := true
    onChunkError := true, onChunkGiveUp := true, onFinished := true
    verbose := false, maxDownloadRetries := 3, concurrentDownloadsMax := 2 }

theorem chunkatron_started_of_chunks (cfg : Settings)
    (hu : cfg.url ≠ none) (hc : cfg.onChunkComplete = true)
    (hk : cfg.chunks ≠ none) :
    chunkatron cfg =
      Except.ok (InitResult.started (startWith cfg (cfg.chunks.getD []))) := by
  have hv : verifySettings cfg = Except.ok () := by
    unfold verifySettings
    split_ifs with h1 h2 h3
    · exact absurd h1 hu
    · exact absurd h2 (by simp [hc])
    · exact absurd h3.1 hk
    · rfl
  have hb : (cfg.chunks.isNone && cfg.chunksUrl.isSome) = false := by
    cases hcs : cfg.chunks with
    | none => exact absurd hcs hk
    | some cs => simp [hcs]
  unfold chunkatron
  rw [hv, hb]
  simp

/-- C7 counterexample: supplying both `chunks` and `chunksUrl` (with `url`
and `onChunkComplete` present) does NOT fail construction — `verifySettings`
only rejects when both sources are missing. -/
theorem C7_both_sources_accepted_counterexample :
    (chunkatron cfgBothSources).isOk = true := rfl

/-- C7 amended: the construction contract requires at least one chunk
source, not exactly one; a configuration supplying both (with the required
`url` and `onChunkComplete`) is accepted and starts downloading. -/
theorem C7_both_sources_accepted (cfg : Settings)
    (hu : cfg.url ≠ none) (hc : cfg.onChunkComplete = true)
    (hk : cfg.chunks ≠ none) :
    ∃ s, chunkatron cfg = Except.ok (InitResult.started s) :=
  ⟨startWith cfg (cfg.chunks.getD []), chunkatron_started_of_chunks cfg hu hc hk⟩

/-- Witness for the amended C7 at the both-sources configuration. -/
theorem C7_both_sources_accepted_witness :
    ∃ s, chunkatron cfgBothSources = Except.ok (InitResult.started s) :=
  C7_both_sources_accepted cfgBothSources (by decide) rfl (by decide)

/-- C10 (precedence claim).
When `chunks` is pre-supplied (with the required `url` and
`onChunkComplete`), construction succeeds and downloading starts
immediately from the pre-supplied chunks, whatever `chunksUrl` holds; the
result is never `fetchingChunks`, the only constructor representing a GET
of the chunk-list URL (source line 166 checks `chunks == null` first), so
no request to `chunksUrl` is issued. -/
theorem C10_presupplied_chunks_take_precedence (cfg : Settings)
    (hu : cfg.url ≠ none) (hc : cfg.onChunkComplete = true)
    (hk : cfg.chunks ≠ none) :
    chunkatron cfg =
      Except.ok (InitResult.started (startWith cfg (cfg.chunks.getD []))) ∧
    ∀ u : String, chunkatron cfg ≠ Except.ok (InitResult.fetchingChunks u) := by
  have hs := chunkatron_started_of_chunks cfg hu hc hk
  refine ⟨hs, fun u hr => ?_⟩
  rw [hs] at hr
  cases hr

/-- Witness for C10: with both sources supplied, the scheduler starts from
the pre-supplied `[[1]]` and never fetches the chunk list. -/
theorem C10_presupplied_chunks_take_precedence_witness :
    chunkatron cfgBothSources =
      Except.ok (InitResult.started (startWith cfgBothSources [[1]])) ∧
    ∀ u : String,
      chunkatron cfgBothSources ≠ Except.ok (InitResult.fetchingChunks u) :=
  C10_presupplied_chunks_take_precedence cfgBothSources (by decide) rfl (by decide)

/-! ## The three-chunk scenario (C6) -/

/-- C6 scenario configuration: chunks `[[1],[2],[3]]`, concurrency cap 2,
every hook provided. -/
def cfgThree : Settings :=
  { url := some "report", onChunkComplete := true, chunks := some [[1], [2], [3]]
    chunksUrl := none, onComplete := false, onChunkSuccess := true
    onChunkError := true, onChunkGiveUp := true, onFinished := true
    verbose := false, maxDownloadRetries := 3, concurrentDownloadsMax := 2 }

/-- The state after `start` for the C6 scenario: `[1]` and `[2]` in flight,
`[3]` queued. -/
def threeStart : State := startWith cfgThree [[1], [2], [3]]

/-- A completion schedule in which all three requests succeed; `i` and `j`
choose which in-flight request finishes first and second. -/
def allSucceed (i j : Nat) : List Step :=
  [⟨i, Outcome.success 0⟩, ⟨j, Outcome.success 0⟩, ⟨0, Outcome.success 0⟩]

/-- C6 counterexample: in the scenario the full event log shows an
`onFinished` (position 7) firing BEFORE the third `onChunkSuccess`
(position 8) — the worker that completes the second request drains the
queue while `[3]` is still in flight.  So `onFinished` does not fire after
all `onChunkSuccess`/`onChunkComplete` calls. -/
theorem C6_onFinished_fires_before_last_success :
    chunkatron cfgThree = Except.ok (InitResult.started threeStart) ∧
    (run cfgThree threeStart (allSucceed 0 0)).events =
      [Event.issued [1], Event.issued [2],
       Event.onChunkSuccess 0, Event.onChunkComplete, Event.issued [3],
       Event.onChunkSuccess 0, Event.onChunkComplete, Event.onFinished,
       Event.onChunkSuccess 0, Event.onChunkComplete, Event.onFinished] ∧
    (run cfgThree threeStart (allSucceed 0 0)).events[7]? =
      some Event.onFinished ∧
    (run cfgThree threeStart (allSucceed 0 0)).events[8]? =
      some (Event.onChunkSuccess 0) :=
  ⟨rfl, by decide, by decide, by decide⟩

/-- C6 amended: for every completion order in which all three requests
succeed, there are exactly 3 `onChunkSuccess` calls and exactly 3
`onChunkComplete` calls, and the final event is `onFinished`; but
`onFinished` fires twice, and its first firing precedes the third
`onChunkSuccess`. -/
theorem C6_three_chunks_all_succeed :
    ∀ i j : Fin 2,
      ((run cfgThree threeStart (allSucceed i.val j.val)).events.count
          (Event.onChunkSuccess 0) = 3) ∧
      ((run cfgThree threeStart (allSucceed i.val j.val)).events.count
          Event.onChunkComplete = 3) ∧
      ((run cfgThree threeStart (allSucceed i.val j.val)).events.count
          Event.onFinished = 2) ∧
      ((run cfgThree threeStart (allSucceed i.val j.val)).events.getLast? =
          some Event.onFinished) := by
  decide

/-! ## Pooled failure keys (C9) -/

/-- C9 scenario configuration: chunks `[[1,1],[1,2]]` share first element 1;
`maxDownloadRetries = 0`, cap 1. -/
def cfgPooled : Settings :=
  { url := some "report", onChunkComplete := true, chunks := some [[1, 1], [1, 2]]
    chunksUrl := none, onComplete := false, onChunkSuccess := true
    onChunkError := true, onChunkGiveUp := true, onFinished := true
    verbose := false, maxDownloadRetries := 0, concurrentDownloadsMax := 1 }

/-- The state after `start` for the C9 scenario. -/
def pooledStart : State := startWith cfgPooled [[1, 1], [1, 2]]

/-- C9 (implicit pooling claim).
First conjunct: failure counts are pooled by the chunk's first element —
an error on `c` increments exactly the counter that is consulted when any
`d` with `d[0] = c[0]` is dequeued.  Second conjunct, a witnessing trace:
after one error on `[1,1]`, the chunk `[1,2]` is given up even though it
was never issued at all (0 errors of its own, fewer than
`maxDownloadRetries + 1 = 1`). -/
theorem C9_failure_counts_pooled_by_key :
    (∀ (cfg : Settings) (c d : Chunk) (err : Nat) (s : State),
        chunkKey c = chunkKey d →
        failLookup (ajaxError cfg c err s).chunkFailures (chunkKey d) =
          some ((failLookup s.chunkFailures (chunkKey d)).getD 0 + 1)) ∧
    (chunkatron cfgPooled = Except.ok (InitResult.started pooledStart) ∧
      (run cfgPooled pooledStart [⟨0, Outcome.failure 7⟩]).events =
        [Event.issued [1, 1], Event.onChunkError 7, Event.onChunkComplete,
         Event.onChunkGiveUp [1, 2], Event.onChunkGiveUp [1, 1],
         Event.onFinished] ∧
      (run cfgPooled pooledStart [⟨0, Outcome.failure 7⟩]).events.count
        (Event.issued [1, 2]) = 0 ∧
      (run cfgPooled pooledStart [⟨0, Outcome.failure 7⟩]).events.count
        (Event.onChunkGiveUp [1, 2]) = 1) := by
  constructor
  · intro cfg c d err s hkey
    have hfb : (ajaxError cfg c err s).chunkFailures =
        failBump s.chunkFailures (chunkKey c) := by
      simp [ajaxError]
    rw [hfb, hkey, failLookup_failBump]
  · exact ⟨rfl, by decide, by decide, by decide⟩

/-- Witness for C9's general conjunct: chunks `[1,1]` and `[1,2]` share key
1, so an error on `[1,1]` sets the counter consulted for `[1,2]` to 1. -/
theorem C9_failure_counts_pooled_by_key_witness :
    failLookup (ajaxError cfgPooled [1, 1] 7 pooledStart).chunkFailures
        (chunkKey [1, 2]) =
      some ((failLookup pooledStart.chunkFailures (chunkKey [1, 2])).getD 0 + 1) :=
  C9_failure_counts_pooled_by_key.1 cfgPooled [1, 1] [1, 2] 7 pooledStart rfl

/-! ## Error surfacing with omitted hooks (C8) -/

/-- C8 counterexample configuration: required options present, every
optional hook omitted, `maxDownloadRetries = 0`, cap 1, chunk `[7]`. -/
def cfgSilent : Settings :=
  { url := some "report", onChunkComplete := true, chunks := some [[7]]
    chunksUrl := none, onComplete := false, onChunkSuccess := false
    onChunkError := false, onChunkGiveUp := false, onFinished := false
    verbose := false, maxDownloadRetries := 0, concurrentDownloadsMax := 1 }

/-- The state after `start` for the C8 scenario. -/
def silentStart : State := startWith cfgSilent [[7]]

/-- The C8 scenario trace: the single request errors once. -/
def silentTrace : State := run cfgSilent silentStart [⟨0, Outcome.failure 3⟩]

/-- C8 counterexample: with the optional hooks omitted (a configuration
`verifySettings` accepts), chunk `[7]` errors once, is re-queued, and on
dequeue its pooled failure count 1 exceeds the ceiling 0: it is abandoned
permanently (final queue and in-flight set empty, failure record kept), yet
the whole trace contains no `onChunkError` and no `onChunkGiveUp`
invocation — the retry-ceiling-exhaustion failure path invokes no
caller-visible hook at all. -/
theorem C8_silent_abandonment_counterexample :
    chunkatron cfgSilent = Except.ok (InitResult.started silentStart) ∧
    silentTrace.events = [Event.issued [7], Event.onChunkComplete] ∧
    silentTrace.chunks = [] ∧
    silentTrace.inFlight = [] ∧
    silentTrace.chunkFailures = [(7, 1)] :=
  ⟨rfl, by decide, by decide, by decide, by decide⟩

theorem ajaxComplete_emits_complete (cfg : Settings) (s : State)
    (hcomp : cfg.onChunkComplete = true) :
    ∃ new, (ajaxComplete cfg s).events = s.events ++ new ∧
      Event.onChunkComplete ∈ new := by
  unfold ajaxComplete
  obtain ⟨d, hd⟩ := downloadChunk_events_mono cfg
    (callback cfg.onChunkComplete Event.onChunkComplete
      { s with concurrentDownloads := s.concurrentDownloads - 1 })
  refine ⟨[Event.onChunkComplete] ++ d, ?_, by simp⟩
  rw [hd]
  simp [hcomp]

theorem downloadChunkAux_giveup_silent (cfg : Settings) (fuel : Nat)
    (s : State) (c : Chunk) (rest : List Chunk)
    (hg : cfg.onChunkGiveUp = false)
    (hc : s.chunks = c :: rest)
    (hlt : s.concurrentDownloads < (cfg.concurrentDownloadsMax : Int))
    (hf : failExceeds s.chunkFailures (chunkKey c) cfg.maxDownloadRetries = true) :
    downloadChunkAux cfg (fuel + 1) s =
      downloadChunkAux cfg fuel { s with chunks := rest } := by
  obtain ⟨cs, fs, cd, fl, ev⟩ := s
  simp only [State.chunks] at hc
  subst hc
  simp only [downloadChunkAux, if_neg (not_le.mpr hlt), hf, if_true]
  simp [callback, hg]

theorem downloadChunk_giveup_silent (cfg : Settings) (s : State) (c : Chunk)
    (rest : List Chunk)
    (hg : cfg.onChunkGiveUp = false)
    (hc : s.chunks = c :: rest)
    (hlt : s.concurrentDownloads < (cfg.concurrentDownloadsMax : Int))
    (hf : failExceeds s.chunkFailures (chunkKey c) cfg.maxDownloadRetries = true) :
    downloadChunk cfg s = downloadChunk cfg { s with chunks := rest } := by
  unfold downloadChunk
  have h1 : s.chunks.length + 1 = rest.length + 1 + 1 := by rw [hc]; rfl
  rw [h1, downloadChunkAux_giveup_silent cfg (rest.length + 1) s c rest hg hc hlt hf]

/-- C8 amended: failure paths are surfaced only through the hooks that are
present.  (1) Missing configuration raises a synchronous construction
error.  (2) Every failed attempt still fires the required `onChunkComplete`
hook.  (3) A chunk-list fetch failure raises an error and nothing retries
it.  But (4) retry-ceiling exhaustion with `onChunkGiveUp` omitted invokes
no hook at all: the call behaves exactly like one on the state with the
chunk silently dropped. -/
theorem C8_error_surfacing :
    (∀ cfg : Settings,
        cfg.url = none ∨ cfg.onChunkComplete = false ∨
          (cfg.chunks = none ∧ cfg.chunksUrl = none) →
        ∃ msg, chunkatron cfg = Except.error msg) ∧
    (∀ (cfg : Settings) (i err : Nat) (s : State) (c : Chunk),
        cfg.onChunkComplete = true →
        s.inFlight[i]? = some c →
        ∃ new, (completeStep cfg i (Outcome.failure err) s).events =
            s.events ++ new ∧ Event.onChunkComplete ∈ new) ∧
    (∀ cfg : Settings, ∃ msg, chunksFetchFailure cfg = Except.error msg) ∧
    (∀ (cfg : Settings) (s : State) (c : Chunk) (rest : List Chunk),
        cfg.onChunkGiveUp = false →
        s.chunks = c :: rest →
        s.concurrentDownloads < (cfg.concurrentDownloadsMax : Int) →
        failExceeds s.chunkFailures (chunkKey c) cfg.maxDownloadRetries = true →
        downloadChunk cfg s = downloadChunk cfg { s with chunks := rest }) := by
  refine ⟨chunkatron_error_of_missing, ?_, fun cfg => ⟨_, rfl⟩,
    fun cfg s c rest hg hc hlt hf =>
      downloadChunk_giveup_silent cfg s c rest hg hc hlt hf⟩
  intro cfg i err s c hcomp hif
  obtain ⟨new2, h2, hmem⟩ := ajaxComplete_emits_complete cfg
    (ajaxError cfg c err { s with inFlight := s.inFlight.eraseIdx i }) hcomp
  refine ⟨(if cfg.onChunkError then [Event.onChunkError err] else []) ++ new2,
    ?_, by simp [hmem]⟩
  simp only [completeStep, hif]
  rw [h2]
  simp [List.append_assoc]

/-- Witness for C8's second conjunct: a failed attempt under `cfgSilent`
still emits `onChunkComplete`. -/
theorem C8_error_surfacing_witness :
    ∃ new, (completeStep cfgSilent 0 (Outcome.failure 3) oneInFlight).events =
        oneInFlight.events ++ new ∧ Event.onChunkComplete ∈ new :=
  C8_error_surfacing.2.1 cfgSilent 0 3 oneInFlight [9] rfl (by decide)

end Chunkatron
